import Mathlib

/-!
Verification development for the disk-viz-viewer repository (Go).

The embedded code lives in:
  internal/disk/os_info.go : FormatSize, formatFloat, floatToString,
    intToString, padZero, GetDirSize, AnalyzeDiskUsage, getChildrenInfo
  internal/api/handler.go  : handleAnalyze (depth query-parameter handling)

Modelling conventions.

Filesystem: the OS state visible to the analyzer is modelled by the
inductive type Entry below.  A file carries the result of stat/Info on it
(none when stat fails); a directory carries a flag saying whether lstat of
it succeeds and, in the listable case, its directory listing in directory
order.  The constructor dirErr stands for a directory whose listing cannot
be read (os.ReadDir / readDirNames fails).

Floats: FormatSize divides an int64 by a power of two (1024^k) and the Go
helpers then truncate, subtract and multiply by 100.  For every value the
theorems below evaluate, those float64 operations are exact (the operands
are dyadic rationals whose numerators fit in 53 bits), so the float value
is represented exactly as a dyadic rational: an integer numerator together
with a power-of-two scale, value num / 2^scale.  All arithmetic on this
representation is integer arithmetic, mirroring the exact IEEE results.

Machine integers: Go int64 arithmetic is modelled by Int.  None of the
claims compares values across an overflow boundary (both sides of every
equation are produced by the same Go computation), so wrap-around is not
modelled.  Go integer division and remainder truncate toward zero and are
modelled by Int.tdiv and Int.tmod.

Concurrency: AnalyzeDiskUsage launches one goroutine per immediate child
and accumulates items and totalSize under a mutex; the accumulated total
is the same for every interleaving (integer addition commutes) and the
item list is a permutation of the children, subsequently sorted.  The
embedding processes children sequentially in directory order, which
realises one of the possible schedules; every claim proved below is
invariant under permutation of the pre-sort list.
-/

/-- Go constant KB = 1024 from FormatSize. -/
def KB : Int := 1024

/-- Go constant MB = KB * 1024 from FormatSize. -/
def MB : Int := KB * 1024

/-- Go constant GB = MB * 1024 from FormatSize. -/
def GB : Int := MB * 1024

/-- Go constant TB = GB * 1024 from FormatSize. -/
def TB : Int := GB * 1024

/-- Go conversion string(rune(n)): a valid code point yields the one-rune
string, anything else yields the replacement character U+FFFD. -/
def goRuneToString (n : Int) : String :=
  if (0 ≤ n ∧ n < 55296) ∨ (57344 ≤ n ∧ n ≤ 1114111) then
    String.mk [Char.ofNat n.toNat]
  else
    "�"

/-- Digit accumulator for intToString: Go builds the decimal digits of a
positive value by prepending n mod 10 and dividing by 10 until zero.  The
first argument is fuel bounding the iteration count (n itself suffices);
it makes the recursion structural so that the kernel can evaluate it. -/
def goDigitsAux : Nat → Nat → List Char
  | _, 0 => []
  | 0, _ + 1 => []
  | fuel + 1, n + 1 =>
    goDigitsAux fuel ((n + 1) / 10) ++ [Char.ofNat (48 + (n + 1) % 10)]

/-- Decimal digit list of a natural number, most significant first, empty
for zero; matches the loop in Go intToString. -/
def goDigits (n : Nat) : List Char := goDigitsAux n n

/-- Embedding of intToString (os_info.go): zero prints "0", a negative
value prints a minus sign followed by the digits of its negation. -/
def intToString (n : Int) : String :=
  if n = 0 then "0"
  else if n < 0 then "-" ++ String.mk (goDigits (-n).toNat)
  else String.mk (goDigits n.toNat)

/-- Embedding of padZero (os_info.go): left-pads a one-digit rendering
with a zero. -/
def padZero (n : Int) : String :=
  let s := intToString n
  if s.length = 1 then "0" ++ s else s

/-- Truncation toward zero of the dyadic rational num / 2^scale; models
the Go conversion int64(f) for the float values that arise here. -/
def dyTrunc (num : Int) (scale : Nat) : Int := num.tdiv (2 ^ scale)

/-- Embedding of floatToString (os_info.go) on the dyadic rational
num / 2^scale: intPart is the truncation, fracPart is the truncation of
(f - intPart) * 100 with its sign stripped, and a positive fracPart is
appended after a dot, two digits wide. -/
def floatToString (num : Int) (scale : Nat) : String :=
  let intPart := dyTrunc num scale
  let fracRaw := (100 * (num - intPart * 2 ^ scale)).tdiv (2 ^ scale)
  let fracPart := if fracRaw < 0 then -fracRaw else fracRaw
  let result := intToString intPart
  if fracPart > 0 then result ++ "." ++ padZero fracPart else result

/-- Embedding of formatFloat (os_info.go) on the dyadic rational
num / 2^scale.  When the value is an exact integer the Go source returns
string(rune('0'+int(f)%10)) — only the last decimal digit of the integer
part — otherwise it falls through to floatToString. -/
def formatFloat (num : Int) (scale : Nat) : String :=
  let t := dyTrunc num scale
  if num = t * 2 ^ scale then
    goRuneToString (48 + Int.tmod t 10)
  else
    floatToString num scale

/-- Embedding of FormatSize (os_info.go): pick the largest binary unit
whose threshold the byte count reaches and format bytes / unit; the
division by 2^(10k) is exact in float64, represented by the scale. -/
def FormatSize (bytes : Int) : String :=
  if bytes ≥ TB then formatFloat bytes 40 ++ " TB"
  else if bytes ≥ GB then formatFloat bytes 30 ++ " GB"
  else if bytes ≥ MB then formatFloat bytes 20 ++ " MB"
  else if bytes ≥ KB then formatFloat bytes 10 ++ " KB"
  else formatFloat bytes 0 ++ " B"

/-- Filesystem node as seen by the analyzer.  file carries the stat/Info
result (none when stat fails).  dirErr is a directory whose listing cannot
be read; its flag records whether lstat of it succeeds.  dir is a listable
directory: the flag records whether lstat succeeds, children is the
listing in directory order. -/
inductive Entry where
  | file (name : String) (info : Option Int)
  | dirErr (name : String) (statOk : Bool)
  | dir (name : String) (statOk : Bool) (children : List Entry)
deriving Repr

/-- Name of a filesystem node. -/
def Entry.name : Entry → String
  | .file n _ => n
  | .dirErr n _ => n
  | .dir n _ _ => n

mutual

/-- Size accumulated by the filepath.Walk of GetDirSize (os_info.go)
rooted at this node.  The walk callback returns nil on every error, so an
unstatable node, an unlistable directory and an unstatable file are
skipped (zero contribution) and the walk never fails; a regular file adds
info.Size(); a listable directory contributes the sum over its listing. -/
def walkSize : Entry → Int
  | .file _ (some s) => s
  | .file _ none => 0
  | .dirErr _ _ => 0
  | .dir _ false _ => 0
  | .dir _ true cs => walkSizeList cs

/-- Sum of walkSize over a directory listing, in walk order. -/
def walkSizeList : List Entry → Int
  | [] => 0
  | e :: es => walkSize e + walkSizeList es

end

/-- Embedding of GetDirSize (os_info.go): the walk callback swallows every
error, so the returned error is always nil and the size is walkSize. -/
def GetDirSize (e : Entry) : Int × Option String := (walkSize e, none)

/-- Result-tree node, embedding the Go struct DirInfo (os_info.go). -/
inductive DirInfo where
  | mk (name : String) (path : String) (size : Int) (sizeStr : String)
      (isDir : Bool) (children : List DirInfo)
deriving Repr

/-- Field name of a DirInfo. -/
def DirInfo.name : DirInfo → String
  | .mk n _ _ _ _ _ => n

/-- Field path of a DirInfo. -/
def DirInfo.path : DirInfo → String
  | .mk _ p _ _ _ _ => p

/-- Field size of a DirInfo. -/
def DirInfo.size : DirInfo → Int
  | .mk _ _ s _ _ _ => s

/-- Field sizeStr of a DirInfo. -/
def DirInfo.sizeStr : DirInfo → String
  | .mk _ _ _ ss _ _ => ss

/-- Field isDir of a DirInfo. -/
def DirInfo.isDir : DirInfo → Bool
  | .mk _ _ _ _ d _ => d

/-- Field children of a DirInfo. -/
def DirInfo.children : DirInfo → List DirInfo
  | .mk _ _ _ _ _ cs => cs

/-- Embedding of the Go struct UsageResult (os_info.go).  The error field
is the Go string zero value "" when absent. -/
structure UsageResult where
  rootPath : String
  totalSize : Int
  totalStr : String
  items : List DirInfo
  error : String
deriving Repr

/-- Embedding of filepath.Join for the slash-separated paths the analyzer
builds (parent joined with a plain child name). -/
def joinPath (parent child : String) : String := parent ++ "/" ++ child

/-- Comparator of the two sort.Slice calls in os_info.go: entry a sorts
before entry b when a.Size > b.Size; as a total preorder this is
b.size ≤ a.size.  sort.Slice is an unstable sort, so any sorted
permutation is a faithful outcome; mergeSort realises one of them. -/
def sortBySizeDesc (l : List DirInfo) : List DirInfo :=
  l.mergeSort (fun a b => decide (DirInfo.size b ≤ DirInfo.size a))

mutual

/-- Per-child result construction shared by the goroutine body of
AnalyzeDiskUsage and the loop body of getChildrenInfo (os_info.go): a file
gets its Info size (zero when Info fails) and no children; a directory
gets GetDirSize (errors swallowed) and, when depth > 1, the sorted
breakdown of its listing one level shallower (empty when the listing
cannot be read). -/
def childInfo (depth : Int) (parentPath : String) : Entry → DirInfo
  | .file n info =>
    let p := joinPath parentPath n
    let size := info.getD 0
    .mk n p size (FormatSize size) false []
  | .dirErr n st =>
    let p := joinPath parentPath n
    let size := walkSize (.dirErr n st)
    .mk n p size (FormatSize size) true []
  | .dir n st cs =>
    let p := joinPath parentPath n
    let size := walkSize (.dir n st cs)
    let children :=
      if depth > 1 then sortBySizeDesc (childrenList (depth - 1) p cs) else []
    .mk n p size (FormatSize size) true children

/-- Image of a directory listing under childInfo, in listing order; the
pre-sort item list of AnalyzeDiskUsage / getChildrenInfo. -/
def childrenList (depth : Int) (parentPath : String) : List Entry → List DirInfo
  | [] => []
  | e :: es => childInfo depth parentPath e :: childrenList depth parentPath es

end

/-- Embedding of getChildrenInfo (os_info.go): nil on an unreadable
listing, otherwise the sorted childInfo images of the listing. -/
def getChildrenInfo (path : String) (depth : Int) : Entry → List DirInfo
  | .dir _ _ cs => sortBySizeDesc (childrenList depth path cs)
  | _ => []

/-- Sum of the size fields of a list of items, the value accumulated in
totalSize by the goroutines of AnalyzeDiskUsage. -/
def sizeSum (l : List DirInfo) : Int := (l.map DirInfo.size).sum

/-- Error string of the os.Stat failure surfaced by AnalyzeDiskUsage: a
PathError prints as the operation, the path and the OS reason. -/
def statErrMsg (path reason : String) : String := "stat " ++ path ++ ": " ++ reason

/-- Error string of the os.ReadDir failure surfaced by AnalyzeDiskUsage:
the underlying open fails with a PathError. -/
def openErrMsg (path reason : String) : String := "open " ++ path ++ ": " ++ reason

/-- Embedding of AnalyzeDiskUsage (os_info.go).  rootPath is the cleaned
path string (the Go function applies filepath.Clean first), root is the
filesystem node it denotes, reason is the OS failure reason used when the
root cannot be stat'ed or listed.  Returns the UsageResult together with
the Go error value (none for nil). -/
def AnalyzeDiskUsage (rootPath : String) (depth : Int) (root : Entry)
    (reason : String) : UsageResult × Option String :=
  match root with
  | .file n (some s) =>
    (⟨rootPath, s, FormatSize s,
      [.mk n rootPath s (FormatSize s) false []], ""⟩, none)
  | .file _ none =>
    let e := statErrMsg rootPath reason
    (⟨rootPath, 0, "", [], e⟩, some e)
  | .dirErr _ false =>
    let e := statErrMsg rootPath reason
    (⟨rootPath, 0, "", [], e⟩, some e)
  | .dirErr _ true =>
    let e := openErrMsg rootPath reason
    (⟨rootPath, 0, "", [], e⟩, some e)
  | .dir _ false _ =>
    let e := statErrMsg rootPath reason
    (⟨rootPath, 0, "", [], e⟩, some e)
  | .dir _ true cs =>
    let infos := childrenList depth rootPath cs
    (⟨rootPath, sizeSum infos, FormatSize (sizeSum infos),
      sortBySizeDesc infos, ""⟩, none)

/-- Decimal digit value of a character, as strconv parsing sees it. -/
def digitVal (c : Char) : Option Nat :=
  if 48 ≤ c.toNat ∧ c.toNat ≤ 57 then some (c.toNat - 48) else none

/-- Accumulating decimal parse over characters; fails on any non-digit. -/
def parseDigitsAux : List Char → Nat → Option Nat
  | [], acc => some acc
  | c :: cs, acc =>
    match digitVal c with
    | some d => parseDigitsAux cs (acc * 10 + d)
    | none => none

/-- Embedding of strconv.Atoi (handler.go): an optional sign followed by
at least one decimal digit; anything else is an error (none).  Overflow
of int is not modelled; the handler only ever accepts values in [1,5]. -/
def atoi (s : String) : Option Int :=
  match s.data with
  | [] => none
  | '+' :: cs => if cs = [] then none else (parseDigitsAux cs 0).map Int.ofNat
  | '-' :: cs => if cs = [] then none else (parseDigitsAux cs 0).map (fun n => -(n : Int))
  | cs => (parseDigitsAux cs 0).map Int.ofNat

/-- Embedding of the depth handling in handleAnalyze (handler.go): depth
starts at the default 1; a non-empty depth query string replaces it only
when it parses and the parsed value d satisfies d > 0 and d <= 5. -/
def handleDepth (depthStr : String) : Int :=
  if depthStr = "" then 1
  else
    match atoi depthStr with
    | some d => if d > 0 ∧ d ≤ 5 then d else 1
    | none => 1

/-- Clamping to the inclusive range [1, 5] in the sense of the spec
sentence "clamping depth to [1,5]": values below 1 become 1, values above
5 become 5.  Stated from the spec words, for comparison with the code's
handleDepth. -/
def clampDepthSpec (d : Int) : Int := max 1 (min 5 d)

/-- Size the analyzer assigns to an immediate child: a file gets its Info
size with zero fallback, a directory gets the GetDirSize walk result.
This value does not depend on the depth argument. -/
def assignedSize : Entry → Int
  | .file _ info => info.getD 0
  | e => walkSize e

/-- Access failure of a node: a file whose stat/Info fails, a directory
whose listing cannot be read, or a directory whose lstat fails.  At the
root these are exactly the shapes on which AnalyzeDiskUsage errors; below
the root they are the shapes skipped during sizing. -/
def accessFails : Entry → Prop
  | .file _ none => True
  | .dirErr _ _ => True
  | .dir _ false _ => True
  | _ => False

/-- Recursive sortedness of a result node: every children sequence, at
this node and transitively below it, is ordered by size descending. -/
inductive AllSorted : DirInfo → Prop where
  | mk : ∀ (n p : String) (s : Int) (ss : String) (d : Bool) (cs : List DirInfo),
      (cs.Pairwise fun a b => DirInfo.size b ≤ DirInfo.size a) →
      (∀ c ∈ cs, AllSorted c) →
      AllSorted (.mk n p s ss d cs)

/-- Recursive consistency of the human-readable strings of a result node:
sizeStr is FormatSize of size, here and transitively below. -/
inductive StrConsistent : DirInfo → Prop where
  | mk : ∀ (n p : String) (s : Int) (ss : String) (d : Bool) (cs : List DirInfo),
      ss = FormatSize s →
      (∀ c ∈ cs, StrConsistent c) →
      StrConsistent (.mk n p s ss d cs)

mutual

/-- Sizes of the files transitively under a node that the walk can reach:
a statable file contributes its size, anything inaccessible contributes
nothing, a listable directory contributes its listing's files.  This
renders the spec phrase "the sum of sizes of all files transitively under
it" (with the spec's own caveat that unreadable entries are skipped). -/
def specFileSizesUnder : Entry → List Int
  | .file _ (some s) => [s]
  | .file _ none => []
  | .dirErr _ _ => []
  | .dir _ false _ => []
  | .dir _ true cs => specFileSizesUnderList cs

/-- Concatenation of specFileSizesUnder over a listing. -/
def specFileSizesUnderList : List Entry → List Int
  | [] => []
  | e :: es => specFileSizesUnder e ++ specFileSizesUnderList es

end

/-- Comparator facts: the sort.Slice comparator is transitive and total,
so mergeSort yields a pairwise size-descending list. -/
theorem pairwise_sortBySizeDesc (l : List DirInfo) :
    (sortBySizeDesc l).Pairwise (fun a b => DirInfo.size b ≤ DirInfo.size a) := by
  have h := @List.sorted_mergeSort DirInfo
    (fun a b : DirInfo => decide (DirInfo.size b ≤ DirInfo.size a))
    (fun a b c h1 h2 => by simp at *; omega)
    (fun a b => by simp; omega) l
  exact h.imp (fun hab => by simpa using hab)

/-- Sorting permutes the pre-sort item list. -/
theorem sortBySizeDesc_perm (l : List DirInfo) : List.Perm (sortBySizeDesc l) l :=
  List.mergeSort_perm l _

/-- Sorting preserves the sum of the size fields. -/
theorem sizeSum_sortBySizeDesc (l : List DirInfo) :
    sizeSum (sortBySizeDesc l) = sizeSum l := by
  unfold sizeSum
  exact ((sortBySizeDesc_perm l).map DirInfo.size).sum_eq

/-- Sorting preserves length. -/
theorem length_sortBySizeDesc (l : List DirInfo) :
    (sortBySizeDesc l).length = l.length :=
  List.length_mergeSort l

/-- The size sequence of the sorted list is determined by the size
sequence of the input: entries compare only through their size field. -/
theorem map_size_sortBySizeDesc (l1 l2 : List DirInfo)
    (h : l1.map DirInfo.size = l2.map DirInfo.size) :
    (sortBySizeDesc l1).map DirInfo.size = (sortBySizeDesc l2).map DirInfo.size := by
  unfold sortBySizeDesc
  rw [List.map_mergeSort (s := fun x y : Int => decide (y ≤ x)) (fun a _ b _ => rfl),
    List.map_mergeSort (s := fun x y : Int => decide (y ≤ x)) (fun a _ b _ => rfl), h]

/-- The per-child size computed by childInfo is assignedSize, whatever
the depth and parent path. -/
theorem childInfo_size (d : Int) (p : String) (e : Entry) :
    (childInfo d p e).size = assignedSize e := by
  cases e with
  | file n info => simp [childInfo, assignedSize, DirInfo.size]
  | dirErr n st => simp [childInfo, assignedSize, DirInfo.size]
  | dir n st cs => simp [childInfo, assignedSize, DirInfo.size]

/-- Length of the pre-sort item list: one item per immediate child. -/
theorem childrenList_length (d : Int) (p : String) (es : List Entry) :
    (childrenList d p es).length = es.length := by
  induction es with
  | nil => simp [childrenList]
  | cons e es ih => simp [childrenList, ih]

/-- Members of the pre-sort item list are childInfo images of listing
members. -/
theorem mem_childrenList {x : DirInfo} {d : Int} {p : String} {es : List Entry}
    (h : x ∈ childrenList d p es) : ∃ e ∈ es, x = childInfo d p e := by
  induction es with
  | nil => simp [childrenList] at h
  | cons e es ih =>
    rw [childrenList] at h
    rcases List.mem_cons.mp h with h' | h'
    · exact ⟨e, by simp, h'⟩
    · obtain ⟨e', he', rfl⟩ := ih h'
      exact ⟨e', by simp [he'], rfl⟩

/-- The size sequence of the pre-sort item list is the assignedSize
sequence of the listing, independent of depth and path. -/
theorem map_size_childrenList (d : Int) (p : String) (es : List Entry) :
    (childrenList d p es).map DirInfo.size = es.map assignedSize := by
  induction es with
  | nil => simp [childrenList]
  | cons e es ih => simp [childrenList, ih, childInfo_size]

/-- A node the walk cannot access contributes zero bytes to GetDirSize. -/
theorem walkSize_eq_zero_of_accessFails {e : Entry} (h : accessFails e) :
    walkSize e = 0 := by
  cases e with
  | file n info =>
    cases info with
    | none => simp [walkSize]
    | some s => simp [accessFails] at h
  | dirErr n st => simp [walkSize]
  | dir n st cs =>
    cases st with
    | false => simp [walkSize]
    | true => simp [accessFails] at h

/-- A node the analyzer cannot access is assigned size zero. -/
theorem assignedSize_eq_zero_of_accessFails {e : Entry} (h : accessFails e) :
    assignedSize e = 0 := by
  cases e with
  | file n info =>
    cases info with
    | none => simp [assignedSize]
    | some s => simp [accessFails] at h
  | dirErr n st => simp [assignedSize, walkSize]
  | dir n st cs =>
    cases st with
    | false => simp [assignedSize, walkSize]
    | true => simp [accessFails] at h

/-- Walk sums split over concatenation of listings. -/
theorem walkSizeList_append (l1 l2 : List Entry) :
    walkSizeList (l1 ++ l2) = walkSizeList l1 + walkSizeList l2 := by
  induction l1 with
  | nil => simp [walkSizeList]
  | cons e es ih => simp [walkSizeList, ih]; ring

/-- A stat error message is never the empty string. -/
theorem statErrMsg_ne_empty (p r : String) : statErrMsg p r ≠ "" := by
  intro h
  have h2 := congrArg String.length h
  simp only [statErrMsg, String.length_append] at h2
  have h3 : String.length "stat " = 5 := rfl
  have h4 : String.length ": " = 2 := rfl
  have h5 : String.length "" = 0 := rfl
  omega

/-- An open error message is never the empty string. -/
theorem openErrMsg_ne_empty (p r : String) : openErrMsg p r ≠ "" := by
  intro h
  have h2 := congrArg String.length h
  simp only [openErrMsg, String.length_append] at h2
  have h3 : String.length "open " = 5 := rfl
  have h4 : String.length ": " = 2 := rfl
  have h5 : String.length "" = 0 := rfl
  omega

mutual

/-- GetDirSize computes exactly the sum of the sizes of the files
transitively under the node, unreadable parts skipped. -/
theorem walkSize_eq_specSum : ∀ e : Entry, walkSize e = (specFileSizesUnder e).sum
  | .file n (some s) => by simp [walkSize, specFileSizesUnder]
  | .file n none => by simp [walkSize, specFileSizesUnder]
  | .dirErr n st => by simp [walkSize, specFileSizesUnder]
  | .dir n false cs => by simp [walkSize, specFileSizesUnder]
  | .dir n true cs => by
    simp only [walkSize, specFileSizesUnder]
    exact walkSizeList_eq_specSum cs

/-- List version of walkSize_eq_specSum. -/
theorem walkSizeList_eq_specSum :
    ∀ es : List Entry, walkSizeList es = (specFileSizesUnderList es).sum
  | [] => by simp [walkSizeList, specFileSizesUnderList]
  | e :: es => by
    simp only [walkSizeList, specFileSizesUnderList, List.sum_append]
    rw [walkSize_eq_specSum e, walkSizeList_eq_specSum es]

end

/-- Every node the per-child construction produces is recursively sorted:
each children sequence at each level comes out of sortBySizeDesc. -/
theorem allSorted_childInfo : ∀ (e : Entry) (d : Int) (p : String),
    AllSorted (childInfo d p e)
  | .file n info, d, p => by
    simp only [childInfo]
    exact .mk _ _ _ _ _ _ (by simp) (by simp)
  | .dirErr n st, d, p => by
    simp only [childInfo]
    exact .mk _ _ _ _ _ _ (by simp) (by simp)
  | .dir n st cs, d, p => by
    simp only [childInfo]
    by_cases hd : d > 1
    · simp only [if_pos hd]
      refine .mk _ _ _ _ _ _ (pairwise_sortBySizeDesc _) ?_
      intro c hc
      have hc2 : c ∈ childrenList (d - 1) (joinPath p n) cs := by
        simpa [sortBySizeDesc] using hc
      obtain ⟨e', he', rfl⟩ := mem_childrenList hc2
      exact allSorted_childInfo e' (d - 1) (joinPath p n)
    · simp only [if_neg hd]
      exact .mk _ _ _ _ _ _ (by simp) (by simp)
termination_by e _ _ => sizeOf e
decreasing_by
  have hlt := List.sizeOf_lt_of_mem he'
  simp only [Entry.dir.sizeOf_spec]
  omega

/-- Every node the per-child construction produces has consistent strings:
sizeStr is FormatSize of size at every level. -/
theorem strConsistent_childInfo : ∀ (e : Entry) (d : Int) (p : String),
    StrConsistent (childInfo d p e)
  | .file n info, d, p => by
    simp only [childInfo]
    exact .mk _ _ _ _ _ _ rfl (by simp)
  | .dirErr n st, d, p => by
    simp only [childInfo]
    exact .mk _ _ _ _ _ _ rfl (by simp)
  | .dir n st cs, d, p => by
    simp only [childInfo]
    by_cases hd : d > 1
    · simp only [if_pos hd]
      refine .mk _ _ _ _ _ _ rfl ?_
      intro c hc
      have hc2 : c ∈ childrenList (d - 1) (joinPath p n) cs := by
        simpa [sortBySizeDesc] using hc
      obtain ⟨e', he', rfl⟩ := mem_childrenList hc2
      exact strConsistent_childInfo e' (d - 1) (joinPath p n)
    · simp only [if_neg hd]
      exact .mk _ _ _ _ _ _ rfl (by simp)
termination_by e _ _ => sizeOf e
decreasing_by
  have hlt := List.sizeOf_lt_of_mem he'
  simp only [Entry.dir.sizeOf_spec]
  omega

/-- Claim C1: for every directory root on which AnalyzeDiskUsage succeeds
(the root is a statable, listable directory), the returned totalSize
equals the sum of the size fields of the direct items, and there is one
item per immediate child of the root. -/
theorem c1_totalSize_is_sum_of_item_sizes (p : String) (d : Int) (n : String)
    (cs : List Entry) (r : String) :
    (AnalyzeDiskUsage p d (.dir n true cs) r).2 = none ∧
    (AnalyzeDiskUsage p d (.dir n true cs) r).1.totalSize
      = sizeSum (AnalyzeDiskUsage p d (.dir n true cs) r).1.items ∧
    (AnalyzeDiskUsage p d (.dir n true cs) r).1.items.length = cs.length := by
  refine ⟨rfl, ?_, ?_⟩
  · show sizeSum (childrenList d p cs) = sizeSum (sortBySizeDesc (childrenList d p cs))
    exact (sizeSum_sortBySizeDesc _).symm
  · show (sortBySizeDesc (childrenList d p cs)).length = cs.length
    rw [length_sortBySizeDesc, childrenList_length]

/-- Claim C2: for a fixed directory root, two runs of AnalyzeDiskUsage at
any two depths produce the same totalSize and the same size sequence over
the items; the size a directory entry is assigned is the GetDirSize walk
result whatever the depth, and that walk result is the sum of the sizes
of all files transitively under the entry (inaccessible parts skipped),
including files deeper than the expansion depth. -/
theorem c2_size_depth_invariant (p : String) (d1 d2 : Int) (n : String)
    (cs : List Entry) (r : String) :
    (AnalyzeDiskUsage p d1 (.dir n true cs) r).1.totalSize
      = (AnalyzeDiskUsage p d2 (.dir n true cs) r).1.totalSize ∧
    (AnalyzeDiskUsage p d1 (.dir n true cs) r).1.items.map DirInfo.size
      = (AnalyzeDiskUsage p d2 (.dir n true cs) r).1.items.map DirInfo.size ∧
    (∀ (d : Int) (q nm : String) (st : Bool) (ccs : List Entry),
      (childInfo d q (.dir nm st ccs)).size = (GetDirSize (.dir nm st ccs)).1) ∧
    (∀ e : Entry, (GetDirSize e).1 = (specFileSizesUnder e).sum) := by
  refine ⟨?_, ?_, ?_, ?_⟩
  · show sizeSum (childrenList d1 p cs) = sizeSum (childrenList d2 p cs)
    unfold sizeSum
    rw [map_size_childrenList, map_size_childrenList]
  · show (sortBySizeDesc (childrenList d1 p cs)).map DirInfo.size
      = (sortBySizeDesc (childrenList d2 p cs)).map DirInfo.size
    exact map_size_sortBySizeDesc _ _
      (by rw [map_size_childrenList, map_size_childrenList])
  · intro d q nm st ccs
    show (childInfo d q (.dir nm st ccs)).size = walkSize (.dir nm st ccs)
    rw [childInfo_size]
    rfl
  · intro e
    show walkSize e = (specFileSizesUnder e).sum
    exact walkSize_eq_specSum e

/-- Claim C3: in every successful result, the items are ordered by size
descending, and every populated children sequence at every nesting level
is too. -/
theorem c3_items_sorted_descending (p : String) (d : Int) (root : Entry)
    (r : String) (h : (AnalyzeDiskUsage p d root r).2 = none) :
    (AnalyzeDiskUsage p d root r).1.items.Pairwise
      (fun a b => DirInfo.size b ≤ DirInfo.size a) ∧
    ∀ x ∈ (AnalyzeDiskUsage p d root r).1.items, AllSorted x := by
  cases root with
  | file n info =>
    cases info with
    | some s =>
      refine ⟨?_, ?_⟩
      · show List.Pairwise _ [DirInfo.mk n p s (FormatSize s) false []]
        simp
      · intro x hx
        have hx2 : x = DirInfo.mk n p s (FormatSize s) false [] := by
          simpa [AnalyzeDiskUsage] using hx
        subst hx2
        exact .mk _ _ _ _ _ _ (by simp) (by simp)
    | none => simp [AnalyzeDiskUsage] at h
  | dirErr n st => cases st <;> simp [AnalyzeDiskUsage] at h
  | dir n st cs =>
    cases st with
    | false => simp [AnalyzeDiskUsage] at h
    | true =>
      refine ⟨pairwise_sortBySizeDesc _, ?_⟩
      intro x hx
      have hx2 : x ∈ childrenList d p cs := by
        simpa [AnalyzeDiskUsage, sortBySizeDesc] using hx
      obtain ⟨e', he', rfl⟩ := mem_childrenList hx2
      exact allSorted_childInfo e' d p

/-- Witness for C3 at a concrete successful run. -/
theorem c3_witness :
    (AnalyzeDiskUsage "/r" 1 (.dir "r" true [.file "a" (some 5)]) "").2 = none ∧
    ((AnalyzeDiskUsage "/r" 1 (.dir "r" true [.file "a" (some 5)]) "").1.items.Pairwise
      (fun a b => DirInfo.size b ≤ DirInfo.size a) ∧
    ∀ x ∈ (AnalyzeDiskUsage "/r" 1 (.dir "r" true [.file "a" (some 5)]) "").1.items,
      AllSorted x) :=
  ⟨rfl, c3_items_sorted_descending "/r" 1 (.dir "r" true [.file "a" (some 5)]) "" rfl⟩

/-- Claim C4: when the root cannot be stat'ed or listed, AnalyzeDiskUsage
returns a non-nil error together with a result carrying the root path, a
non-empty error string equal to the returned error, no items and a zero
totalSize. -/
theorem c4_root_error_result (p : String) (d : Int) (root : Entry) (r : String)
    (h : accessFails root) :
    ∃ msg, (AnalyzeDiskUsage p d root r).2 = some msg ∧
      (AnalyzeDiskUsage p d root r).1.error = msg ∧
      msg ≠ "" ∧
      (AnalyzeDiskUsage p d root r).1.rootPath = p ∧
      (AnalyzeDiskUsage p d root r).1.items = [] ∧
      (AnalyzeDiskUsage p d root r).1.totalSize = 0 := by
  cases root with
  | file n info =>
    cases info with
    | none => exact ⟨statErrMsg p r, rfl, rfl, statErrMsg_ne_empty p r, rfl, rfl, rfl⟩
    | some s => simp [accessFails] at h
  | dirErr n st =>
    cases st with
    | false => exact ⟨statErrMsg p r, rfl, rfl, statErrMsg_ne_empty p r, rfl, rfl, rfl⟩
    | true => exact ⟨openErrMsg p r, rfl, rfl, openErrMsg_ne_empty p r, rfl, rfl, rfl⟩
  | dir n st cs =>
    cases st with
    | false => exact ⟨statErrMsg p r, rfl, rfl, statErrMsg_ne_empty p r, rfl, rfl, rfl⟩
    | true => simp [accessFails] at h

/-- Witness for C4 at a concrete missing root path. -/
theorem c4_witness :
    ∃ msg,
      (AnalyzeDiskUsage "/definitely/does/not/exist" 1 (Entry.file "exist" none)
        "no such file or directory").2 = some msg ∧
      (AnalyzeDiskUsage "/definitely/does/not/exist" 1 (Entry.file "exist" none)
        "no such file or directory").1.error = msg ∧
      msg ≠ "" ∧
      (AnalyzeDiskUsage "/definitely/does/not/exist" 1 (Entry.file "exist" none)
        "no such file or directory").1.rootPath = "/definitely/does/not/exist" ∧
      (AnalyzeDiskUsage "/definitely/does/not/exist" 1 (Entry.file "exist" none)
        "no such file or directory").1.items = [] ∧
      (AnalyzeDiskUsage "/definitely/does/not/exist" 1 (Entry.file "exist" none)
        "no such file or directory").1.totalSize = 0 :=
  c4_root_error_result "/definitely/does/not/exist" 1 (Entry.file "exist" none)
    "no such file or directory" trivial

/-- Claim C5: an inaccessible entry strictly below the root is non-fatal:
AnalyzeDiskUsage on a listable root still succeeds whatever its listing
holds, the inaccessible entry contributes zero bytes to GetDirSize and to
its assigned size, and the walk sum over a listing containing it equals
the walk sum with it removed. -/
theorem c5_per_entry_error_nonfatal (p : String) (d : Int) (n : String)
    (cs es1 es2 : List Entry) (r : String) (bad : Entry) (h : accessFails bad) :
    (AnalyzeDiskUsage p d (.dir n true cs) r).2 = none ∧
    (AnalyzeDiskUsage p d (.dir n true cs) r).1.error = "" ∧
    (GetDirSize bad).1 = 0 ∧
    assignedSize bad = 0 ∧
    walkSizeList (es1 ++ bad :: es2) = walkSizeList (es1 ++ es2) := by
  refine ⟨rfl, rfl, walkSize_eq_zero_of_accessFails h,
    assignedSize_eq_zero_of_accessFails h, ?_⟩
  rw [walkSizeList_append, walkSizeList_append]
  have hb : walkSizeList (bad :: es2) = walkSize bad + walkSizeList es2 := by
    simp [walkSizeList]
  rw [hb, walkSize_eq_zero_of_accessFails h]
  ring

/-- Witness for C5 at a concrete unreadable child. -/
theorem c5_witness :
    (AnalyzeDiskUsage "/r" 1 (.dir "r" true [Entry.dirErr "locked" true]) "").2 = none ∧
    (AnalyzeDiskUsage "/r" 1 (.dir "r" true [Entry.dirErr "locked" true]) "").1.error = "" ∧
    (GetDirSize (Entry.dirErr "locked" true)).1 = 0 ∧
    assignedSize (Entry.dirErr "locked" true) = 0 ∧
    walkSizeList ([Entry.file "a" (some 7)] ++ Entry.dirErr "locked" true :: [])
      = walkSizeList ([Entry.file "a" (some 7)] ++ []) :=
  c5_per_entry_error_nonfatal "/r" 1 "r" [Entry.dirErr "locked" true]
    [Entry.file "a" (some 7)] [] "" (Entry.dirErr "locked" true) trivial

/-- Claim C6 counterexample: the formatter renders 1536 bytes as
"1.50 KB", not "1.5 KB" as the claim states — the two-digit fraction
keeps its trailing zero. -/
theorem c6_counterexample : FormatSize 1536 = "1.50 KB" ∧ FormatSize 1536 ≠ "1.5 KB" := by
  refine ⟨?_, ?_⟩ <;> decide

/-- Claim C6 as amended: the spec example equalities hold except that
1536 bytes renders as "1.50 KB" (two fractional digits, trailing zero
kept), with the dot as separator. -/
theorem c6_amended_format_examples :
    FormatSize 0 = "0 B" ∧ FormatSize 1024 = "1 KB" ∧
    FormatSize 1536 = "1.50 KB" ∧ FormatSize 1073741824 = "1 GB" := by
  refine ⟨?_, ?_, ?_, ?_⟩ <;> decide

/-- Claim C7: the code disagrees with the claim.  On a value that is an
exact integer at the selected unit, formatFloat returns only the last
decimal digit of that integer, so 10240 bytes renders as "0 KB" instead
of the claimed "10 KB" and 104857600 bytes renders as "0 MB" instead of
"100 MB". -/
theorem c7_exact_integer_last_digit_bug :
    FormatSize (10 * 1024) = "0 KB" ∧
    FormatSize (100 * 1048576) = "0 MB" ∧
    FormatSize (10 * 1024) ≠ "10 KB" := by
  refine ⟨?_, ?_, ?_⟩ <;> decide

/-- Claim C8 counterexample: a depth of 7 is not clamped into [1, 5] (the
clamp of 7 is 5); the handler replaces it by the default 1. -/
theorem c8_counterexample :
    handleDepth "7" = 1 ∧ clampDepthSpec 7 = 5 ∧
    handleDepth "7" ≠ clampDepthSpec 7 := by
  refine ⟨?_, ?_, ?_⟩ <;> decide

/-- Claim C8 as amended: the depth passed to the analyzer is always in
[1, 5]; a missing depth defaults to 1; a parsed value in (0, 5] is used
as is; a parsed value outside that range — including any value above 5 —
falls back to the default 1 rather than being clamped to the nearer
bound. -/
theorem c8_amended_depth_in_range :
    (∀ s : String, 1 ≤ handleDepth s ∧ handleDepth s ≤ 5) ∧
    handleDepth "" = 1 ∧
    (∀ (s : String) (d : Int), atoi s = some d → 0 < d → d ≤ 5 → handleDepth s = d) ∧
    (∀ (s : String) (d : Int), atoi s = some d → (d ≤ 0 ∨ 5 < d) → handleDepth s = 1) := by
  refine ⟨?_, rfl, ?_, ?_⟩
  · intro s
    unfold handleDepth
    by_cases hs : s = ""
    · simp only [if_pos hs]
      omega
    · simp only [if_neg hs]
      cases hA : atoi s with
      | none =>
        show (1 : Int) ≤ 1 ∧ (1 : Int) ≤ 5
        omega
      | some dd =>
        by_cases hd : dd > 0 ∧ dd ≤ 5
        · simp only [if_pos hd]
          omega
        · simp only [if_neg hd]
          omega
  · intro s d hA hpos hle
    have hs : s ≠ "" := by
      intro h0
      rw [h0] at hA
      simp [atoi] at hA
    unfold handleDepth
    simp only [if_neg hs]
    rw [hA]
    simp only [if_pos (⟨hpos, hle⟩ : d > 0 ∧ d ≤ 5)]
  · intro s d hA hout
    have hs : s ≠ "" := by
      intro h0
      rw [h0] at hA
      simp [atoi] at hA
    have hd : ¬(d > 0 ∧ d ≤ 5) := by omega
    unfold handleDepth
    simp only [if_neg hs]
    rw [hA]
    simp only [if_neg hd]

/-- Witness for C8 at concrete query strings: 3 is accepted, 9 falls back
to the default. -/
theorem c8_witness : handleDepth "3" = 3 ∧ handleDepth "9" = 1 :=
  ⟨c8_amended_depth_in_range.2.2.1 "3" 3 (by decide) (by decide) (by decide),
   c8_amended_depth_in_range.2.2.2 "9" 9 (by decide) (Or.inr (by decide))⟩

/-- Claim C10 counterexample: on a failed analysis the result's totalStr
is the empty string while FormatSize of its zero totalSize is "0 B", so
the consistency does not hold for every result. -/
theorem c10_counterexample :
    (AnalyzeDiskUsage "/definitely/does/not/exist" 1 (Entry.file "exist" none)
        "no such file or directory").1.totalStr
      ≠ FormatSize
        (AnalyzeDiskUsage "/definitely/does/not/exist" 1 (Entry.file "exist" none)
          "no such file or directory").1.totalSize := by
  decide

/-- Claim C10 as amended: in every successful result of AnalyzeDiskUsage,
totalStr is FormatSize of totalSize and every entry at every nesting
level has sizeStr equal to FormatSize of its size. -/
theorem c10_amended_strings_consistent (p : String) (d : Int) (root : Entry)
    (r : String) (h : (AnalyzeDiskUsage p d root r).2 = none) :
    (AnalyzeDiskUsage p d root r).1.totalStr
      = FormatSize (AnalyzeDiskUsage p d root r).1.totalSize ∧
    ∀ x ∈ (AnalyzeDiskUsage p d root r).1.items, StrConsistent x := by
  cases root with
  | file n info =>
    cases info with
    | some s =>
      refine ⟨rfl, ?_⟩
      intro x hx
      have hx2 : x = DirInfo.mk n p s (FormatSize s) false [] := by
        simpa [AnalyzeDiskUsage] using hx
      subst hx2
      exact .mk _ _ _ _ _ _ rfl (by simp)
    | none => simp [AnalyzeDiskUsage] at h
  | dirErr n st => cases st <;> simp [AnalyzeDiskUsage] at h
  | dir n st cs =>
    cases st with
    | false => simp [AnalyzeDiskUsage] at h
    | true =>
      refine ⟨rfl, ?_⟩
      intro x hx
      have hx2 : x ∈ childrenList d p cs := by
        simpa [AnalyzeDiskUsage, sortBySizeDesc] using hx
      obtain ⟨e', he', rfl⟩ := mem_childrenList hx2
      exact strConsistent_childInfo e' d p

/-- Witness for C10 at a concrete successful run. -/
theorem c10_witness :
    (AnalyzeDiskUsage "/r" 2 (.dir "r" true [.file "a" (some 5)]) "").2 = none ∧
    ((AnalyzeDiskUsage "/r" 2 (.dir "r" true [.file "a" (some 5)]) "").1.totalStr
      = FormatSize (AnalyzeDiskUsage "/r" 2 (.dir "r" true
          [.file "a" (some 5)]) "").1.totalSize ∧
    ∀ x ∈ (AnalyzeDiskUsage "/r" 2 (.dir "r" true [.file "a" (some 5)]) "").1.items,
      StrConsistent x) :=
  ⟨rfl, c10_amended_strings_consistent "/r" 2 (.dir "r" true [.file "a" (some 5)]) "" rfl⟩
